import Mathlib

/-!
Shallow embedding of the WhatsApp expense tracker backend
(sxudan/whatsapp-expense-tracker-backend) and proofs about the claims of its
specification.

Modelling conventions, used throughout:

* JS strings are Lean `String`s; `String.prototype.trim` and
  `String.prototype.toLowerCase` are modelled character-wise (`jsTrim`,
  `jsToLower`).  The lower-casing model covers ASCII letters, and the
  whitespace set is space, tab, LF and CR; the claims only exercise these.
* Calendar dates are modelled as serial day numbers (`Int`, days since
  1970-01-01, negative for earlier dates), converted to and from civil
  `(year, month, day)` triples by the standard Gregorian algorithms
  (`daysFromCivil`, `civilFromDays`).  The service compares dates through
  their `YYYY-MM-DD` strings; for four-digit years lexicographic order on
  those strings coincides with date order, so the embedding compares serial
  numbers directly.  `Date.prototype.getDay` is `jsGetDay` (1970-01-01 was a
  Thursday, day index 4).
* Monetary amounts are `ℚ` (the code coerces DB values with `Number(...)`
  before summing; IEEE rounding is not modelled, no claim depends on it).
* `async` collaborator calls that can reject, and synchronous code that can
  throw, are modelled with `Except RErr`; a `try/catch` block is `jsTry`.
* JS truthiness on optional strings/numbers is modelled explicitly
  (`none` and `some ""` / `some 0` are falsy).
-/

/-! ## Character-level model of the JS string operations used by the code -/

/-- Whitespace test used by `String.prototype.trim` (space, tab, LF, CR;
char codes 32, 9, 10, 13). -/
def isWsChar (c : Char) : Bool :=
  c.toNat == 32 || c.toNat == 9 || c.toNat == 10 || c.toNat == 13

/-- ASCII lower-casing of one character, as done by
`String.prototype.toLowerCase` on the basic Latin range. -/
def lcChar (c : Char) : Char :=
  if 65 ≤ c.toNat ∧ c.toNat ≤ 90 then Char.ofNat (c.toNat + 32) else c

theorem lcChar_def (c : Char) :
    lcChar c = if 65 ≤ c.toNat ∧ c.toNat ≤ 90 then Char.ofNat (c.toNat + 32) else c := rfl

theorem ofNat_toNat_lower (n : Nat) (h1 : 97 ≤ n) (h2 : n ≤ 122) :
    (Char.ofNat n).toNat = n := by
  interval_cases n <;> rfl

theorem lcChar_toNat_of_upper (c : Char) (h : 65 ≤ c.toNat ∧ c.toNat ≤ 90) :
    (lcChar c).toNat = c.toNat + 32 := by
  rw [lcChar_def, if_pos h]
  exact ofNat_toNat_lower _ (by omega) (by omega)

theorem lcChar_lcChar (c : Char) : lcChar (lcChar c) = lcChar c := by
  by_cases h : 65 ≤ c.toNat ∧ c.toNat ≤ 90
  · have h2 := lcChar_toNat_of_upper c h
    rw [lcChar_def (lcChar c), if_neg (by omega)]
  · rw [lcChar_def c, if_neg h, lcChar_def c, if_neg h]

theorem isWsChar_lcChar (c : Char) : isWsChar (lcChar c) = isWsChar c := by
  by_cases h : 65 ≤ c.toNat ∧ c.toNat ≤ 90
  · have h2 := lcChar_toNat_of_upper c h
    have e1 : isWsChar (lcChar c) = false := by simp [isWsChar, h2]; omega
    have e2 : isWsChar c = false := by simp [isWsChar]; omega
    rw [e1, e2]
  · rw [lcChar_def c, if_neg h]

def wsTrimLeft (l : List Char) : List Char := l.dropWhile isWsChar

def wsTrimRight (l : List Char) : List Char := (l.reverse.dropWhile isWsChar).reverse

def trimChars (l : List Char) : List Char := wsTrimRight (wsTrimLeft l)

/-- `String.prototype.trim`: drop leading and trailing whitespace. -/
def jsTrim (s : String) : String := String.mk (trimChars s.data)

/-- `String.prototype.toLowerCase` (ASCII model). -/
def jsToLower (s : String) : String := String.mk (s.data.map lcChar)

theorem dropWhile_map_lc (l : List Char) :
    (l.map lcChar).dropWhile isWsChar = (l.dropWhile isWsChar).map lcChar := by
  induction l with
  | nil => rfl
  | cons c t ih =>
    simp only [List.map_cons, List.dropWhile_cons, isWsChar_lcChar]
    by_cases h : isWsChar c = true
    · simp [h, ih]
    · simp [h]

theorem dropWhile_head_false (p : Char → Bool) (l : List Char) (a : Char) (t : List Char)
    (h : l.dropWhile p = a :: t) : p a = false := by
  induction l with
  | nil => simp at h
  | cons c cs ih =>
    rw [List.dropWhile_cons] at h
    by_cases hc : p c = true
    · rw [if_pos hc] at h; exact ih h
    · rw [if_neg hc] at h
      cases h
      simpa using hc

theorem dropWhile_suffix_exists (p : Char → Bool) (l : List Char) :
    ∃ u, u ++ l.dropWhile p = l := by
  induction l with
  | nil => exact ⟨[], rfl⟩
  | cons c cs ih =>
    rw [List.dropWhile_cons]
    by_cases hc : p c = true
    · rw [if_pos hc]
      obtain ⟨u, hu⟩ := ih
      exact ⟨c :: u, by simp [hu]⟩
    · rw [if_neg hc]
      exact ⟨[], rfl⟩

theorem wsTrimRight_prefix_exists (l : List Char) :
    ∃ r, wsTrimRight l ++ r = l := by
  obtain ⟨u, hu⟩ := dropWhile_suffix_exists isWsChar l.reverse
  refine ⟨u.reverse, ?_⟩
  have := congrArg List.reverse hu
  simpa [wsTrimRight] using this

theorem wsTrimLeft_wsTrimRight_wsTrimLeft (l : List Char) :
    wsTrimLeft (wsTrimRight (wsTrimLeft l)) = wsTrimRight (wsTrimLeft l) := by
  cases h : wsTrimRight (wsTrimLeft l) with
  | nil => rfl
  | cons a t =>
    obtain ⟨r, hr⟩ := wsTrimRight_prefix_exists (wsTrimLeft l)
    rw [h] at hr
    have ha : isWsChar a = false := by
      apply dropWhile_head_false isWsChar l a (t ++ r)
      simpa [wsTrimLeft] using hr.symm
    simp [wsTrimLeft, List.dropWhile_cons, ha]

theorem dropWhile_idem (p : Char → Bool) (l : List Char) :
    (l.dropWhile p).dropWhile p = l.dropWhile p := by
  cases h : l.dropWhile p with
  | nil => rfl
  | cons a t =>
    have := dropWhile_head_false p l a t h
    simp [List.dropWhile_cons, this]

theorem wsTrimRight_idem (l : List Char) :
    wsTrimRight (wsTrimRight l) = wsTrimRight l := by
  simp [wsTrimRight, dropWhile_idem]

theorem trimChars_map_lc (l : List Char) :
    trimChars (l.map lcChar) = (trimChars l).map lcChar := by
  unfold trimChars wsTrimLeft wsTrimRight
  rw [dropWhile_map_lc]
  rw [show (List.map lcChar (l.dropWhile isWsChar)).reverse
        = (l.dropWhile isWsChar).reverse.map lcChar by simp]
  rw [dropWhile_map_lc]
  simp

theorem trimChars_idem (l : List Char) : trimChars (trimChars l) = trimChars l := by
  show wsTrimRight (wsTrimLeft (wsTrimRight (wsTrimLeft l))) = trimChars l
  rw [wsTrimLeft_wsTrimRight_wsTrimLeft, wsTrimRight_idem]
  rfl

theorem map_lc_idem (l : List Char) : (l.map lcChar).map lcChar = l.map lcChar := by
  rw [List.map_map]
  exact List.map_congr_left fun c _ => lcChar_lcChar c

/-- `s.trim().toLowerCase()` is idempotent: applying it to an
already-normalized text returns that text. -/
theorem norm_idem (s : String) :
    jsToLower (jsTrim (jsToLower (jsTrim s))) = jsToLower (jsTrim s) := by
  apply congrArg String.mk
  show (trimChars ((trimChars s.data).map lcChar)).map lcChar
      = (trimChars s.data).map lcChar
  rw [trimChars_map_lc, trimChars_idem, map_lc_idem]

/-! ## Calendar model -/

/-- Serial day number of the civil date `(y, m, d)` (month 1..12), days since
1970-01-01 (Hinnant's days-from-civil algorithm; the day `d` may exceed the
month length, extending linearly exactly as JS `Date` day-overflow does). -/
def daysFromCivil (y m d : Int) : Int :=
  let y2 := if m ≤ 2 then y - 1 else y
  let era := y2.fdiv 400
  let yoe := y2 - era * 400
  let mp := (m + 9).emod 12
  let doy := (153 * mp + 2).fdiv 5 + d - 1
  let doe := yoe * 365 + yoe.fdiv 4 - yoe.fdiv 100 + doy
  era * 146097 + doe - 719468

/-- Civil date `(year, month 1..12, day 1..31)` of a serial day number
(Hinnant's civil-from-days algorithm). -/
def civilFromDays (z0 : Int) : Int × Int × Int :=
  let z := z0 + 719468
  let era := z.fdiv 146097
  let doe := z - era * 146097
  let yoe := (doe - doe.fdiv 1460 + doe.fdiv 36524 - doe.fdiv 146096).fdiv 365
  let y := yoe + era * 400
  let doy := doe - (365 * yoe + yoe.fdiv 4 - yoe.fdiv 100)
  let mp := (5 * doy + 2).fdiv 153
  let d := doy - (153 * mp + 2).fdiv 5 + 1
  let m := if mp < 10 then mp + 3 else mp - 9
  (if m ≤ 2 then y + 1 else y, m, d)

/-- `new Date(y, monthIndex, d)` at local midnight, as a serial day:
the 0-based month index is normalized into the year exactly as JS does. -/
def jsMakeDate (y mIdx d : Int) : Int :=
  daysFromCivil (y + mIdx.fdiv 12) (mIdx.emod 12 + 1) d

/-- `Date.prototype.getDay` on a local-midnight date: 0 = Sunday.
1970-01-01 (serial 0) was a Thursday, index 4. -/
def jsGetDay (d : Int) : Int := (d + 4).emod 7

/-- Split a character list on a separator, like `String.prototype.split`. -/
def splitOnChar (sep : Char) : List Char → List (List Char)
  | [] => [[]]
  | c :: t =>
    match splitOnChar sep t with
    | [] => [[]]
    | h :: r => if c = sep then [] :: h :: r else (c :: h) :: r

/-- One decimal digit, by char code. -/
def charDigit (c : Char) : Option Nat :=
  if 48 ≤ c.toNat ∧ c.toNat ≤ 57 then some (c.toNat - 48) else none

def digitsVal : Nat → List Char → Option Nat
  | acc, [] => some acc
  | acc, c :: t =>
    match charDigit c with
    | some d => digitsVal (acc * 10 + d) t
    | none => none

/-- JS `Number(...)` restricted to non-negative decimal integers; `none`
models `NaN`.  (`Number("")` is 0 in JS, and signs/decimals parse too, but
the code only ever feeds this the dash-separated parts of a `YYYY-MM-DD`
string, so those cases are not modelled.) -/
def jsNumberNat (l : List Char) : Option Nat :=
  match l with
  | [] => none
  | _ => digitsVal 0 l

/-- `parseLocalDate` from `expense-handler.service.ts`:
`const [year, month, day] = dateStr.split('-').map(Number);
return new Date(year, month - 1, day);`.
A malformed string produces an invalid JS date, which no claim exercises;
it is modelled as serial 0. -/
def parseLocalDate (s : String) : Int :=
  match (splitOnChar '-' s.data).map jsNumberNat with
  | [some y, some m, some d] => jsMakeDate (Int.ofNat y) (Int.ofNat m - 1) (Int.ofNat d)
  | _ => 0

def pad2 (n : Int) : String := if n < 10 then "0" ++ toString n else toString n

/-- `formatDate` from `expense-handler.service.ts`: local `YYYY-MM-DD`. -/
def formatDateSerial (d : Int) : String :=
  match civilFromDays d with
  | (y, m, dd) => toString y ++ "-" ++ pad2 m ++ "-" ++ pad2 dd

/-! ## Data model -/

/-- A user account (`user.entity.ts`), reduced to the key the engine uses. -/
structure UserAcct where
  id : Nat
deriving DecidableEq, Repr

/-- A persisted expense row (`expense.entity.ts`).  `date` is the calendar
date stored in the DATE column, as a serial day; `createdAt` orders rows by
creation time. -/
structure Expense where
  id : Nat
  ownerId : Nat
  amount : ℚ
  description : Option String
  category : Option String
  date : Int
  createdAt : Nat
deriving DecidableEq, Repr

/-- `CreateExpenseDto` from `expense.service.ts`.  `amount` is optional here
because the executor forwards the model-supplied argument bag unvalidated:
an absent amount reaches the store as `undefined`. -/
structure CreateDto where
  amount : Option ℚ
  description : Option String
  category : Option String
  date : Option Int
  user : UserAcct

/-! ## Insertion sort (model of the DB `ORDER BY` and of `Array.sort`) -/

def insertBy {α : Type} (le : α → α → Bool) (x : α) : List α → List α
  | [] => [x]
  | y :: t => if le x y then x :: y :: t else y :: insertBy le x t

def sortBy {α : Type} (le : α → α → Bool) : List α → List α
  | [] => []
  | x :: t => insertBy le x (sortBy le t)

theorem insertBy_perm {α : Type} (le : α → α → Bool) (x : α) (l : List α) :
    List.Perm (insertBy le x l) (x :: l) := by
  induction l with
  | nil => rfl
  | cons y t ih =>
    rw [insertBy]
    by_cases h : le x y = true
    · rw [if_pos h]
    · rw [if_neg h]
      exact (ih.cons y).trans (List.Perm.swap x y t)

theorem sortBy_perm {α : Type} (le : α → α → Bool) (l : List α) :
    List.Perm (sortBy le l) l := by
  induction l with
  | nil => rfl
  | cons x t ih => exact (insertBy_perm le x (sortBy le t)).trans (ih.cons x)

theorem mem_insertBy {α : Type} (le : α → α → Bool) (x a : α) (l : List α) :
    a ∈ insertBy le x l ↔ a = x ∨ a ∈ l := by
  rw [List.Perm.mem_iff (insertBy_perm le x l)]
  exact List.mem_cons

theorem insertBy_pairwise {α : Type} (le : α → α → Bool)
    (htot : ∀ a b, le a b = true ∨ le b a = true)
    (htr : ∀ a b c, le a b = true → le b c = true → le a c = true)
    (x : α) (l : List α) (h : l.Pairwise (fun a b => le a b = true)) :
    (insertBy le x l).Pairwise (fun a b => le a b = true) := by
  induction l with
  | nil => simp [insertBy]
  | cons y t ih =>
    rw [List.pairwise_cons] at h
    rw [insertBy]
    by_cases hxy : le x y = true
    · rw [if_pos hxy]
      refine List.Pairwise.cons ?_ (List.Pairwise.cons h.1 h.2)
      intro z hz
      rcases List.mem_cons.mp hz with hz | hz
      · exact hz ▸ hxy
      · exact htr x y z hxy (h.1 z hz)
    · rw [if_neg hxy]
      refine List.Pairwise.cons ?_ (ih h.2)
      intro z hz
      rcases (mem_insertBy le x z t).mp hz with hz | hz
      · cases hz
        rcases htot x y with h1 | h1
        · exact absurd h1 hxy
        · exact h1
      · exact h.1 z hz

theorem sortBy_pairwise {α : Type} (le : α → α → Bool)
    (htot : ∀ a b, le a b = true ∨ le b a = true)
    (htr : ∀ a b c, le a b = true → le b c = true → le a c = true)
    (l : List α) : (sortBy le l).Pairwise (fun a b => le a b = true) := by
  induction l with
  | nil => simp [sortBy]
  | cons x t ih => exact insertBy_pairwise le htot htr x (sortBy le t) ih

/-! ## Model of a JS `Map` as an insertion-ordered association list

`Map.prototype.set` updates an existing key in place (keeping its insertion
position) and appends a new key at the end; `Map.prototype.entries`
enumerates in insertion order, which is the list itself here. -/

def mapGet {κ ν : Type} [DecidableEq κ] (k : κ) : List (κ × ν) → Option ν
  | [] => none
  | (k2, v) :: t => if k2 = k then some v else mapGet k t

def mapSet {κ ν : Type} [DecidableEq κ] (k : κ) (v : ν) : List (κ × ν) → List (κ × ν)
  | [] => [(k, v)]
  | (k2, v2) :: t => if k2 = k then (k2, v) :: t else (k2, v2) :: mapSet k v t

theorem mapGet_mapSet_self {κ ν : Type} [DecidableEq κ] (k : κ) (v : ν)
    (m : List (κ × ν)) : mapGet k (mapSet k v m) = some v := by
  induction m with
  | nil => simp [mapSet, mapGet]
  | cons p t ih =>
    obtain ⟨k2, v2⟩ := p
    rw [mapSet]
    by_cases h : k2 = k
    · rw [if_pos h, mapGet, if_pos h]
    · rw [if_neg h, mapGet, if_neg h]
      exact ih

theorem mapGet_mapSet_ne {κ ν : Type} [DecidableEq κ] (k k2 : κ) (v : ν)
    (m : List (κ × ν)) (h : k2 ≠ k) : mapGet k2 (mapSet k v m) = mapGet k2 m := by
  induction m with
  | nil =>
    simp [mapSet, mapGet]
    intro he
    exact absurd he.symm h
  | cons p t ih =>
    obtain ⟨k3, v3⟩ := p
    rw [mapSet]
    by_cases h3 : k3 = k
    · rw [if_pos h3]
      have hne : ¬ k3 = k2 := by rw [h3]; exact fun he => h he.symm
      rw [mapGet, if_neg hne, mapGet, if_neg hne]
    · rw [if_neg h3, mapGet]
      by_cases h32 : k3 = k2
      · rw [if_pos h32, mapGet, if_pos h32]
      · rw [if_neg h32, mapGet, if_neg h32]
        exact ih

theorem mapGet_eq_none_iff {κ ν : Type} [DecidableEq κ] (k : κ) (m : List (κ × ν)) :
    mapGet k m = none ↔ k ∉ m.map Prod.fst := by
  induction m with
  | nil => simp [mapGet]
  | cons p t ih =>
    obtain ⟨k2, v2⟩ := p
    rw [mapGet]
    by_cases h : k2 = k
    · simp [h]
    · rw [if_neg h, ih]
      simp [Ne.symm h]

theorem keys_mapSet {κ ν : Type} [DecidableEq κ] (k : κ) (v : ν) (m : List (κ × ν)) :
    (mapSet k v m).map Prod.fst =
      if k ∈ m.map Prod.fst then m.map Prod.fst else m.map Prod.fst ++ [k] := by
  induction m with
  | nil => simp [mapSet]
  | cons p t ih =>
    obtain ⟨k2, v2⟩ := p
    rw [mapSet]
    by_cases h : k2 = k
    · rw [if_pos h]
      simp [h]
    · rw [if_neg h]
      have hk2 : ¬ k = k2 := fun he => h he.symm
      by_cases hmem : k ∈ t.map Prod.fst
      · rw [if_pos (by simp [hmem])]
        simp [ih, hmem]
      · rw [if_neg (by simp [hk2, hmem])]
        simp [ih, hmem]

theorem nodup_keys_mapSet {κ ν : Type} [DecidableEq κ] (k : κ) (v : ν)
    (m : List (κ × ν)) (h : (m.map Prod.fst).Nodup) :
    ((mapSet k v m).map Prod.fst).Nodup := by
  rw [keys_mapSet]
  by_cases hmem : k ∈ m.map Prod.fst
  · rw [if_pos hmem]; exact h
  · rw [if_neg hmem]
    simp [List.nodup_append, h, hmem]

theorem mem_of_mapGet_eq_some {κ ν : Type} [DecidableEq κ] (k : κ) (v : ν)
    (m : List (κ × ν)) (h : mapGet k m = some v) : (k, v) ∈ m := by
  induction m with
  | nil => simp [mapGet] at h
  | cons p t ih =>
    obtain ⟨k2, v2⟩ := p
    rw [mapGet] at h
    by_cases h2 : k2 = k
    · rw [if_pos h2] at h
      cases h
      exact h2 ▸ List.mem_cons_self _ _
    · rw [if_neg h2] at h
      exact List.mem_cons_of_mem _ (ih h)

theorem mapGet_eq_some_of_mem {κ ν : Type} [DecidableEq κ] (k : κ) (v : ν)
    (m : List (κ × ν)) (hnd : (m.map Prod.fst).Nodup) (h : (k, v) ∈ m) :
    mapGet k m = some v := by
  induction m with
  | nil => simp at h
  | cons p t ih =>
    obtain ⟨k2, v2⟩ := p
    rw [List.map_cons, List.nodup_cons] at hnd
    rw [mapGet]
    rcases List.mem_cons.mp h with he | hmem
    · cases he
      rw [if_pos rfl]
    · by_cases h2 : k2 = k
      · exfalso
        apply hnd.1
        have : k ∈ t.map Prod.fst := List.mem_map.mpr ⟨(k, v), hmem, rfl⟩
        exact h2 ▸ this
      · rw [if_neg h2]
        exact ih hnd.2 hmem

/-! ## The grouping fold shared by `getExpensesByCategory` and
`getDailyExpenses`

Both walk the records, look the key up in a `Map`
(`const existing = map.get(key) || { total: 0, count: 0 }`) and store back
`{ total: existing.total + amount, count: existing.count + 1 }`. -/

def groupStep {κ : Type} [DecidableEq κ] (key : Expense → κ)
    (m : List (κ × (ℚ × Nat))) (e : Expense) : List (κ × (ℚ × Nat)) :=
  let ex := (mapGet (key e) m).getD (0, 0)
  mapSet (key e) (ex.1 + e.amount, ex.2 + 1) m

def groupPairs {κ : Type} [DecidableEq κ] (key : Expense → κ)
    (l : List Expense) : List (κ × (ℚ × Nat)) :=
  l.foldl (groupStep key) []

/-- Sum of the amounts of the records with the given key. -/
def sumByKey {κ : Type} [DecidableEq κ] (key : Expense → κ) (l : List Expense)
    (k : κ) : ℚ :=
  ((l.filter fun e => key e = k).map fun e => e.amount).sum

/-- Number of records with the given key. -/
def countByKey {κ : Type} [DecidableEq κ] (key : Expense → κ) (l : List Expense)
    (k : κ) : Nat :=
  (l.filter fun e => key e = k).length

theorem groupPairs_get_aux {κ : Type} [DecidableEq κ] (key : Expense → κ)
    (l : List Expense) (m : List (κ × (ℚ × Nat))) (k : κ) :
    mapGet k (l.foldl (groupStep key) m) =
      match mapGet k m with
      | some tc => some (tc.1 + sumByKey key l k, tc.2 + countByKey key l k)
      | none =>
        if countByKey key l k = 0 then none
        else some (sumByKey key l k, countByKey key l k) := by
  induction l generalizing m with
  | nil =>
    simp only [List.foldl_nil, sumByKey, countByKey, List.filter_nil, List.map_nil,
      List.sum_nil, List.length_nil]
    cases mapGet k m <;> simp
  | cons e t ih =>
    rw [List.foldl_cons, ih]
    by_cases hk : key e = k
    · subst hk
      have hsum : sumByKey key (e :: t) (key e) = e.amount + sumByKey key t (key e) := by
        simp [sumByKey, List.filter_cons]
      have hcount : countByKey key (e :: t) (key e) = countByKey key t (key e) + 1 := by
        simp [countByKey, List.filter_cons, Nat.add_comm]
      cases hm : mapGet (key e) m with
      | some tc =>
        have hset : mapGet (key e) (groupStep key m e) = some (tc.1 + e.amount, tc.2 + 1) := by
          simp [groupStep, hm, mapGet_mapSet_self]
        rw [hset, hsum, hcount]
        simp only [Option.some.injEq, Prod.mk.injEq]
        constructor
        · ring
        · omega
      | none =>
        have hset : mapGet (key e) (groupStep key m e) = some (0 + e.amount, 0 + 1) := by
          simp [groupStep, hm, mapGet_mapSet_self]
        rw [hset, hsum, hcount]
        simp only []
        rw [if_neg (by omega)]
        simp only [Option.some.injEq, Prod.mk.injEq]
        constructor
        · ring
        · omega
    · have hsum : sumByKey key (e :: t) k = sumByKey key t k := by
        simp [sumByKey, List.filter_cons, hk]
      have hcount : countByKey key (e :: t) k = countByKey key t k := by
        simp [countByKey, List.filter_cons, hk]
      have hset : mapGet k (groupStep key m e) = mapGet k m := by
        simp only [groupStep]
        exact mapGet_mapSet_ne (key e) k _ m (fun he => hk he.symm)
      rw [hset, hsum, hcount]

theorem groupPairs_get {κ : Type} [DecidableEq κ] (key : Expense → κ)
    (l : List Expense) (k : κ) :
    mapGet k (groupPairs key l) =
      if countByKey key l k = 0 then none
      else some (sumByKey key l k, countByKey key l k) := by
  have h := groupPairs_get_aux key l [] k
  simpa [groupPairs, mapGet] using h

theorem groupPairs_nodup_keys {κ : Type} [DecidableEq κ] (key : Expense → κ)
    (l : List Expense) : ((groupPairs key l).map Prod.fst).Nodup := by
  have aux : ∀ (l2 : List Expense) (m : List (κ × (ℚ × Nat))),
      (m.map Prod.fst).Nodup → ((l2.foldl (groupStep key) m).map Prod.fst).Nodup := by
    intro l2
    induction l2 with
    | nil => intro m hm; exact hm
    | cons e t ih =>
      intro m hm
      rw [List.foldl_cons]
      exact ih _ (nodup_keys_mapSet _ _ _ hm)
  exact aux l [] (by simp)

theorem countByKey_ne_zero_iff {κ : Type} [DecidableEq κ] (key : Expense → κ)
    (l : List Expense) (k : κ) :
    countByKey key l k ≠ 0 ↔ ∃ e ∈ l, key e = k := by
  rw [countByKey]
  rw [Ne, List.length_eq_zero]
  constructor
  · intro h
    rcases List.exists_mem_of_ne_nil _ h with ⟨e, he⟩
    have := List.mem_filter.mp he
    exact ⟨e, this.1, by simpa using this.2⟩
  · rintro ⟨e, hel, hek⟩ hnil
    have : e ∈ List.filter (fun e => decide (key e = k)) l :=
      List.mem_filter.mpr ⟨hel, by simpa using hek⟩
    rw [hnil] at this
    simp at this

theorem groupPairs_key_mem {κ : Type} [DecidableEq κ] (key : Expense → κ)
    (l : List Expense) (k : κ) :
    k ∈ (groupPairs key l).map Prod.fst ↔ ∃ e ∈ l, key e = k := by
  rw [← countByKey_ne_zero_iff key l k]
  have hg := groupPairs_get key l k
  constructor
  · intro hmem hc
    rw [hc] at hg
    simp only [if_pos rfl] at hg
    exact (mapGet_eq_none_iff k (groupPairs key l)).mp hg hmem
  · intro hc
    by_contra hmem
    have hn := (mapGet_eq_none_iff k (groupPairs key l)).mpr hmem
    rw [hg, if_neg hc] at hn
    simp at hn

/-! ## ExpenseService (`expense.service.ts`)

The store is the list of persisted rows.  The query builder's
`WHERE userId = :u AND date >= :s AND date <= :e ORDER BY date DESC,
createdAt DESC` becomes filter-then-sort; the `YYYY-MM-DD` string
comparisons become serial-day comparisons (see the header note). -/

/-- `ORDER BY date DESC, createdAt DESC`. -/
def byDateCreatedDesc (a b : Expense) : Bool :=
  decide (b.date < a.date) || (decide (a.date = b.date) && decide (b.createdAt ≤ a.createdAt))

/-- `ORDER BY createdAt DESC`. -/
def byCreatedDesc (a b : Expense) : Bool :=
  decide (b.createdAt ≤ a.createdAt)

/-- `getExpensesByUserAndDateRange`: the owner's rows whose date lies in the
inclusive range, newest first. -/
def getExpensesByUserAndDateRange (store : List Expense) (userId : Nat)
    (startDate endDate : Int) : List Expense :=
  sortBy byDateCreatedDesc
    (store.filter fun e => e.ownerId = userId ∧ startDate ≤ e.date ∧ e.date ≤ endDate)

/-- `getLatestExpenses`: most recently created first, `take limit`. -/
def getLatestExpenses (store : List Expense) (userId : Nat) (limit : Nat) :
    List Expense :=
  (sortBy byCreatedDesc (store.filter fun e => e.ownerId = userId)).take limit

/-- `getExpensesByUser` with the JS-truthy `if (limit)` slice. -/
def getExpensesByUser (store : List Expense) (userId : Nat) (limit : Option Nat) :
    List Expense :=
  let sorted := sortBy byDateCreatedDesc (store.filter fun e => e.ownerId = userId)
  match limit with
  | some l => if l = 0 then sorted else sorted.take l
  | none => sorted

/-- `getTotalExpensesByUser`: `SUM(amount)` over the owner's rows
(`parseFloat(result?.total || '0')`, so an empty set gives 0). -/
def getTotalExpensesByUser (store : List Expense) (userId : Nat) : ℚ :=
  ((store.filter fun e => e.ownerId = userId).map fun e => e.amount).sum

/-- `getTotalExpensesByUserToday`: rows whose date equals today's local date. -/
def getTotalExpensesByUserToday (store : List Expense) (today : Int)
    (userId : Nat) : ℚ × Nat :=
  let expenses := sortBy byDateCreatedDesc
    (store.filter fun e => e.ownerId = userId ∧ e.date = today)
  ((expenses.map fun e => e.amount).sum, expenses.length)

/-- `getTotalExpensesByUserThisWeek`: `startOfWeek = today - today.getDay()`,
`endOfWeek = startOfWeek + 7`, then the inclusive range query. -/
def getTotalExpensesByUserThisWeek (store : List Expense) (today : Int)
    (userId : Nat) : ℚ × Nat :=
  let dayOfWeek := jsGetDay today
  let startOfWeek := today - dayOfWeek
  let endOfWeek := startOfWeek + 7
  let expenses := getExpensesByUserAndDateRange store userId startOfWeek endOfWeek
  ((expenses.map fun e => e.amount).sum, expenses.length)

/-- `getTotalExpensesByUserThisMonth`: first to last calendar day of the
current month (`new Date(y, m, 1)` .. `new Date(y, m + 1, 0)`). -/
def getTotalExpensesByUserThisMonth (store : List Expense) (today : Int)
    (userId : Nat) : ℚ × Nat :=
  match civilFromDays today with
  | (y, m, _) =>
    let startOfMonth := jsMakeDate y (m - 1) 1
    let endOfMonth := jsMakeDate y m 0
    let expenses := getExpensesByUserAndDateRange store userId startOfMonth endOfMonth
    ((expenses.map fun e => e.amount).sum, expenses.length)

/-- The category bucket used by `getExpensesByCategory`:
`expense.category ? expense.category.trim().toLowerCase() : 'uncategorized'`
(note `''` is falsy). -/
def categoryKey (c : Option String) : String :=
  match c with
  | some s => if s = "" then "uncategorized" else jsToLower (jsTrim s)
  | none => "uncategorized"

structure CatEntry where
  category : String
  total : ℚ
  count : Nat
deriving DecidableEq, Repr

structure DayEntry where
  date : Int
  total : ℚ
  count : Nat
deriving DecidableEq, Repr

/-- The grouping part of `getExpensesByCategory` (the `forEach` over the
fetched rows plus `Array.from(map.entries())`, insertion order). -/
def getExpensesByCategoryGroup (records : List Expense) : List CatEntry :=
  (groupPairs (fun e => categoryKey e.category) records).map fun p =>
    { category := p.1, total := p.2.1, count := p.2.2 }

/-- `getExpensesByCategory`: select the period's rows, then group. Any
period other than `this_month` / `this_week` falls through to all rows. -/
def getExpensesByCategorySvc (store : List Expense) (today : Int) (userId : Nat)
    (period : Option String) : List CatEntry :=
  let expenses :=
    if period = some "this_month" then
      match civilFromDays today with
      | (y, m, _) =>
        getExpensesByUserAndDateRange store userId (jsMakeDate y (m - 1) 1) (jsMakeDate y m 0)
    else if period = some "this_week" then
      getExpensesByUserAndDateRange store userId (today - jsGetDay today)
        (today - jsGetDay today + 7)
    else getExpensesByUser store userId none
  getExpensesByCategoryGroup expenses

/-- The grouping-and-sort part of `getDailyExpenses` (group by the row's
`YYYY-MM-DD` date, then `sort((a, b) => a.date.localeCompare(b.date))`). -/
def getDailyExpensesGroup (records : List Expense) : List DayEntry :=
  sortBy (fun a b => decide (a.date ≤ b.date))
    ((groupPairs (fun e => e.date) records).map fun p =>
      { date := p.1, total := p.2.1, count := p.2.2 })

/-- `getDailyExpenses`: range query, then day-level grouping. -/
def getDailyExpensesSvc (store : List Expense) (userId : Nat)
    (startDate endDate : Int) : List DayEntry :=
  getDailyExpensesGroup (getExpensesByUserAndDateRange store userId startDate endDate)

/-- The category normalization done at storage time by `createExpense`:
`createExpenseDto.category ? createExpenseDto.category.trim().toLowerCase()
: undefined`. -/
def storedCategory (c : Option String) : Option String :=
  match c with
  | some s => if s = "" then none else some (jsToLower (jsTrim s))
  | none => none

/-! ## Response types (`response.types.ts`) and the WhatsApp formatter
(`whatsapp.formatter.ts`) -/

inductive MessageFormat where
  | text
  | template
  | markdown
deriving DecidableEq, Repr

/-- The platform-agnostic reply envelope (`PlatformResponse`), flattened:
the TS union members share these fields, all optional ones `undefined`
when absent.  Template parameter values are already-stringified
(`String(value)` in the formatter turns arbitrary values into text;
the claims never depend on that conversion). -/
structure PlatformResponse where
  format : MessageFormat
  content : String
  templateName : Option String := none
  templateParams : Option (List (String × String)) := none
  imageUrl : Option String := none
  caption : Option String := none
deriving DecidableEq, Repr

structure WATemplateParam where
  ptype : String
  text : String
deriving DecidableEq, Repr

structure WATemplateComponent where
  ctype : String
  parameters : List WATemplateParam
deriving DecidableEq, Repr

/-- The WhatsApp wire message produced by the formatter: either a plain text
message `{ messaging_product: 'whatsapp', to, text: { body } }` or a
template message (the constant `messaging_product` field is implicit in the
constructor). -/
inductive WAMessage where
  | text (recipient : String) (body : String)
  | template (recipient : String) (name : String) (languageCode : String)
      (components : Option (List WATemplateComponent))
deriving DecidableEq, Repr

/-- `WhatsAppFormatter.buildTemplateComponents`. -/
def buildTemplateComponents (params : Option (List (String × String))) :
    Option (List WATemplateComponent) :=
  match params with
  | none => none
  | some l =>
    if l.isEmpty then none
    else
      let bodyParams := (l.filter fun kv => !(kv.1.startsWith "_")).map fun kv =>
        WATemplateParam.mk "text" kv.2
      if bodyParams.isEmpty then none
      else some [WATemplateComponent.mk "body" bodyParams]

/-- `WhatsAppFormatter.formatText`. -/
def formatText (response : PlatformResponse) (recipientId : String) : WAMessage :=
  .text recipientId response.content

/-- `WhatsAppFormatter.formatTemplate`: `if (!response.templateName)` falls
back to a text message built from the same content (JS falsiness: absent or
empty template name). -/
def formatTemplate (response : PlatformResponse) (recipientId : String) : WAMessage :=
  match response.templateName with
  | none => formatText { format := .text, content := response.content } recipientId
  | some n =>
    if n = "" then formatText { format := .text, content := response.content } recipientId
    else
      .template recipientId n "en_US" (buildTemplateComponents response.templateParams)

/-- `WhatsAppFormatter.format`. -/
def whatsappFormat (response : PlatformResponse) (recipientId : String) : WAMessage :=
  if response.format = .template then formatTemplate response recipientId
  else formatText response recipientId

/-! ## Round-2 output parsing (`openai.service.ts`,
`processMessageWithTools`) -/

/-- The fields the service reads off the model's round-2 JSON
(`JSON.parse(responseContent)` with every field possibly absent). -/
structure Round2Parsed where
  format : Option String := none
  content : Option String := none
  templateName : Option String := none
  templateParams : Option (List (String × String)) := none
  imageUrl : Option String := none
  caption : Option String := none

/-- `parsed.content || 'Sorry, I encountered an error.'` (falsy handling). -/
def jsOrString (o : Option String) (dflt : String) : String :=
  match o with
  | some s => if s = "" then dflt else s
  | none => dflt

/-- JS truthiness of an optional string. -/
def jsTruthyStr (o : Option String) : Bool :=
  match o with
  | some s => !(s == "")
  | none => false

/-- The reply envelope built from parsed round-2 output:
`format: parsed.format === 'template' ? TEMPLATE : TEXT`, default content on
falsy content, and image fields attached only when `parsed.imageUrl` is
truthy. -/
def mkRound2Response (parsed : Round2Parsed) : PlatformResponse :=
  let fmt := if parsed.format = some "template" then MessageFormat.template
    else MessageFormat.text
  let response : PlatformResponse :=
    { format := fmt
      content := jsOrString parsed.content "Sorry, I encountered an error."
      templateName := parsed.templateName
      templateParams := parsed.templateParams }
  if jsTruthyStr parsed.imageUrl then
    { response with imageUrl := parsed.imageUrl, caption := parsed.caption }
  else response

/-! ## The Operation Executor (`expense-handler.service.ts`,
`executeFunction`)

Collaborator calls (`await this.expenseService...`, `this.chartService...`)
can reject or throw; that is `Except RErr`.  A `try { ... } catch` block is
`jsTry`.  Plain JSON result values are `RVal`. -/

inductive RErr where
  | typeError
  | thrown
deriving DecidableEq, Repr

inductive RVal where
  | str : String → RVal
  | num : ℚ → RVal
  | bool : Bool → RVal
  | null : RVal
  | arr : List RVal → RVal
  | obj : List (String × RVal) → RVal

/-- `try { body } catch { return onCatch }`. -/
def jsTry (body : Except RErr RVal) (onCatch : RVal) : Except RErr RVal :=
  match body with
  | .error _ => .ok onCatch
  | .ok v => .ok v

/-- The untyped argument bag parsed from the model's tool call
(`JSON.parse(toolCall.function.arguments || '{}')`): every field may be
absent. -/
structure Args where
  amount : Option ℚ := none
  description : Option String := none
  category : Option String := none
  date : Option String := none
  expenseId : Option Nat := none
  limit : Option Nat := none
  startDate : Option String := none
  endDate : Option String := none
  period : Option String := none

/-- The collaborators the executor calls: the user store, the ledger store
and the chart service, each call modelled as possibly failing.
`getExpensesByCategoryForDateRange` is invoked by the executor but its
implementation is not part of the provided source; it stays an opaque
collaborator here, and no claim exercises it. -/
structure Collab where
  findById : Nat → Except RErr (Option UserAcct)
  createExpense : CreateDto → Except RErr Expense
  getTotalExpensesByUserThisMonth : Nat → Except RErr (ℚ × Nat)
  getLatestExpenses : Nat → Nat → Except RErr (List Expense)
  deleteExpense : Nat → Nat → Except RErr Bool
  getTotalExpensesByUserToday : Nat → Except RErr (ℚ × Nat)
  getTotalExpensesByUserThisWeek : Nat → Except RErr (ℚ × Nat)
  getTotalExpensesByUser : Nat → Except RErr ℚ
  getExpensesByUser : Nat → Option Nat → Except RErr (List Expense)
  getExpensesByUserAndDateRange : Nat → Int → Int → Except RErr (List Expense)
  getDailyExpenses : Nat → Int → Int → Except RErr (List DayEntry)
  getExpensesByCategory : Nat → Option String → Except RErr (List CatEntry)
  getExpensesByCategoryForDateRange : Nat → String → Int → Int → Except RErr (ℚ × Nat)
  generateBarChartUrl : List String → List ℚ → ℚ → String → Except RErr String
  generatePieChartUrl : List String → List ℚ → ℚ → String → Except RErr String

def optStrRVal : Option String → RVal
  | some s => .str s
  | none => .null

/-- The per-expense payload `{ amount, description, category, date }` with
the canonical `YYYY-MM-DD` date string. -/
def expenseRVal (e : Expense) : RVal :=
  .obj [("amount", .num e.amount), ("description", optStrRVal e.description),
        ("category", optStrRVal e.category), ("date", .str (formatDateSerial e.date))]

def userNotFoundResult : RVal :=
  .obj [("error", .str "Couldn\x27t find your user account")]

def failSaveResult : RVal :=
  .obj [("success", .bool false), ("error", .str "Failed to save expense")]

def noExpensesToDeleteResult : RVal :=
  .obj [("success", .bool false), ("error", .str "No expenses found to delete")]

def deleteNotFoundResult : RVal :=
  .obj [("success", .bool false),
        ("error", .str "Expense not found or you do not have permission to delete it")]

def failDeleteResult : RVal :=
  .obj [("success", .bool false), ("error", .str "Failed to delete expense")]

def noExpensesForPeriodResult : RVal :=
  .obj [("success", .bool false), ("error", .str "No expenses found for the selected period")]

def failChartResult : RVal :=
  .obj [("success", .bool false), ("error", .str "Failed to generate chart")]

def failReportResult : RVal :=
  .obj [("success", .bool false), ("error", .str "Failed to generate report")]

/-- `add_expense` case: no validation of `amount`; the argument bag is cast
and forwarded.  `args.date ? new Date(args.date) : new Date()` (dates are
local-midnight serials; the embedding is at UTC offset 0, where the ISO
parse of `YYYY-MM-DD` and the local calendar agree). -/
def execAddExpense (c : Collab) (args : Args) (user : UserAcct) (userId : Nat)
    (today : Int) : Except RErr RVal :=
  jsTry
    (match c.createExpense
        { amount := args.amount, description := args.description,
          category := args.category,
          date := some (match args.date with
            | some s => if s = "" then today else parseLocalDate s
            | none => today),
          user := user } with
     | .error e => .error e
     | .ok exp =>
       match c.getTotalExpensesByUserThisMonth userId with
       | .error e => .error e
       | .ok monthlyData =>
         .ok (.obj [("success", .bool true),
           ("expense", expenseRVal exp),
           ("monthlyTotal", .num monthlyData.1),
           ("monthlyCount", .num monthlyData.2)]))
    failSaveResult

def execDoDelete (c : Collab) (expenseId : Nat) (userId : Nat) : Except RErr RVal :=
  match c.deleteExpense expenseId userId with
  | .error e => .error e
  | .ok false => .ok deleteNotFoundResult
  | .ok true =>
    .ok (.obj [("success", .bool true),
      ("message", .str ("Expense " ++ toString expenseId ++ " deleted successfully")),
      ("expenseId", .num expenseId)])

/-- `delete_expense` case: `if (!expenseId)` (absent or 0) resolves to the
most recently created expense of the owner. -/
def execDeleteExpense (c : Collab) (args : Args) (userId : Nat) : Except RErr RVal :=
  jsTry
    (match (match args.expenseId with
            | some n => if n = 0 then none else some n
            | none => none) with
     | none =>
       match c.getLatestExpenses userId 1 with
       | .error e => .error e
       | .ok [] => .ok noExpensesToDeleteResult
       | .ok (x :: _) => execDoDelete c x.id userId
     | some eid => execDoDelete c eid userId)
    failDeleteResult

def execTotalToday (c : Collab) (userId : Nat) : Except RErr RVal :=
  match c.getTotalExpensesByUserToday userId with
  | .error e => .error e
  | .ok d => .ok (.obj [("total", .num d.1), ("count", .num d.2), ("period", .str "today")])

def execTotalThisWeek (c : Collab) (userId : Nat) : Except RErr RVal :=
  match c.getTotalExpensesByUserThisWeek userId with
  | .error e => .error e
  | .ok d => .ok (.obj [("total", .num d.1), ("count", .num d.2), ("period", .str "this week")])

def execTotalThisMonth (c : Collab) (userId : Nat) : Except RErr RVal :=
  match c.getTotalExpensesByUserThisMonth userId with
  | .error e => .error e
  | .ok d => .ok (.obj [("total", .num d.1), ("count", .num d.2), ("period", .str "this month")])

/-- `get_latest_expenses`: `const limit = limitArgs.limit || 5`. -/
def execLatestExpenses (c : Collab) (args : Args) (userId : Nat) : Except RErr RVal :=
  let limit := match args.limit with
    | some n => if n = 0 then 5 else n
    | none => 5
  match c.getLatestExpenses userId limit with
  | .error e => .error e
  | .ok expenses =>
    .ok (.obj [("expenses", .arr (expenses.map expenseRVal)),
      ("count", .num expenses.length)])

def execTotalAllTime (c : Collab) (userId : Nat) : Except RErr RVal :=
  match c.getTotalExpensesByUser userId with
  | .error e => .error e
  | .ok total => .ok (.obj [("total", .num total), ("period", .str "all time")])

def execAllExpenses (c : Collab) (args : Args) (userId : Nat) : Except RErr RVal :=
  match c.getExpensesByUser userId args.limit with
  | .error e => .error e
  | .ok expenses =>
    .ok (.obj [("expenses", .arr (expenses.map expenseRVal)),
      ("total", .num ((expenses.map fun e => e.amount).sum)),
      ("count", .num expenses.length)])

/-- `get_expenses_by_date_range`.  With `startDate` absent the source runs
`rangeArgs.startDate.split('-')` on `undefined`, throwing a `TypeError`
which nothing in the executor catches.  There is no start/end order check. -/
def execRange (c : Collab) (args : Args) (userId : Nat) (today : Int) :
    Except RErr RVal :=
  match args.startDate with
  | none => .error .typeError
  | some sd =>
    let startDate := parseLocalDate sd
    let endDate := match args.endDate with
      | some ed => if ed = "" then today else parseLocalDate ed
      | none => today
    match c.getExpensesByUserAndDateRange userId startDate endDate with
    | .error e => .error e
    | .ok expenses =>
      let limited := match args.limit with
        | some l => if l = 0 then expenses else expenses.take l
        | none => expenses
      .ok (.obj [("expenses", .arr (limited.map expenseRVal)),
        ("total", .num ((limited.map fun e => e.amount).sum)),
        ("count", .num limited.length),
        ("startDate", .str sd),
        ("endDate", .str (match args.endDate with
          | some ed => if ed = "" then formatDateSerial today else ed
          | none => formatDateSerial today))])

/-- `get_total_expenses_by_date_range` (same `TypeError` on an absent
`startDate`, no order check; category branch when `rangeArgs.category` is
truthy). -/
def execTotalRange (c : Collab) (args : Args) (userId : Nat) (today : Int) :
    Except RErr RVal :=
  match args.startDate with
  | none => .error .typeError
  | some sd =>
    let startDate := parseLocalDate sd
    let endDate := match args.endDate with
      | some ed => if ed = "" then today else parseLocalDate ed
      | none => today
    let endDateEcho : String := match args.endDate with
      | some ed => if ed = "" then formatDateSerial today else ed
      | none => formatDateSerial today
    let plainPath : Except RErr RVal :=
      match c.getExpensesByUserAndDateRange userId startDate endDate with
      | .error e => .error e
      | .ok expenses =>
        .ok (.obj [("total", .num ((expenses.map fun e => e.amount).sum)),
          ("count", .num expenses.length),
          ("startDate", .str sd), ("endDate", .str endDateEcho)])
    match args.category with
    | some cat =>
      if cat = "" then plainPath
      else
        match c.getExpensesByCategoryForDateRange userId cat startDate endDate with
        | .error e => .error e
        | .ok d =>
          .ok (.obj [("total", .num d.1), ("count", .num d.2),
            ("category", .str cat),
            ("startDate", .str sd), ("endDate", .str endDateEcho)])
    | none => plainPath

def monthShortName (m : Int) : String :=
  if m = 1 then "Jan" else if m = 2 then "Feb" else if m = 3 then "Mar"
  else if m = 4 then "Apr" else if m = 5 then "May" else if m = 6 then "Jun"
  else if m = 7 then "Jul" else if m = 8 then "Aug" else if m = 9 then "Sep"
  else if m = 10 then "Oct" else if m = 11 then "Nov" else "Dec"

/-- Chart label `"Nov 15"` built from the grouped day
(`toLocaleString('default', { month: 'short' })` plus the day of month). -/
def dailyLabel (d : Int) : String :=
  match civilFromDays d with
  | (_, m, dd) => monthShortName m ++ " " ++ toString dd

/-- `.replace('_', ' ')` with a string pattern replaces only the first
occurrence. -/
def replaceFirstUnderscore : List Char → List Char
  | [] => []
  | c :: t => if c.toNat = 95 then Char.ofNat 32 :: t else c :: replaceFirstUnderscore t

def ucChar (c : Char) : Char :=
  if 97 ≤ c.toNat ∧ c.toNat ≤ 122 then Char.ofNat (c.toNat - 32) else c

def isWordChar (c : Char) : Bool :=
  decide (48 ≤ c.toNat ∧ c.toNat ≤ 57) || decide (65 ≤ c.toNat ∧ c.toNat ≤ 90) ||
    decide (97 ≤ c.toNat ∧ c.toNat ≤ 122) || c.toNat == 95

/-- `.replace(/\b\w/g, l => l.toUpperCase())`: uppercase each character that
begins a word. -/
def titleCaseAux : Bool → List Char → List Char
  | _, [] => []
  | prevWord, c :: t =>
    (if isWordChar c && !prevWord then ucChar c else c) :: titleCaseAux (isWordChar c) t

def periodTitleOf (p : String) : String :=
  String.mk (titleCaseAux false (replaceFirstUnderscore p.data))

/-- `new Date(y, m, 1)` .. `new Date(y, m + 1, 0)` for the current month. -/
def defaultMonthRange (today : Int) : Int × Int :=
  match civilFromDays today with
  | (y, m, _) => (jsMakeDate y (m - 1) 1, jsMakeDate y m 0)

/-- Date-range resolution of `generate_daily_expense_chart`: explicit dates
if both truthy, otherwise the (truthy) named period, otherwise this month.
Any unrecognized truthy period falls into the `last_week` branch. -/
def dailyChartRange (args : Args) (today : Int) : Int × Int :=
  let periodRange : Int × Int :=
    match args.period with
    | some p =>
      if p = "" then defaultMonthRange today
      else if p = "this_month" then defaultMonthRange today
      else if p = "this_week" then (today - jsGetDay today, today)
      else if p = "last_month" then
        match civilFromDays today with
        | (y, m, _) =>
          match civilFromDays (jsMakeDate y (m - 2) 1) with
          | (ly, lm, _) => (jsMakeDate ly (lm - 1) 1, jsMakeDate ly lm 0)
      else (today - jsGetDay today - 7, today - jsGetDay today - 1)
    | none => defaultMonthRange today
  match args.startDate, args.endDate with
  | some sd, some ed =>
    if sd = "" ∨ ed = "" then periodRange else (parseLocalDate sd, parseLocalDate ed)
  | _, _ => periodRange

def execDailyChart (c : Collab) (args : Args) (userId : Nat) (today : Int) :
    Except RErr RVal :=
  jsTry
    (let range := dailyChartRange args today
     match c.getDailyExpenses userId range.1 range.2 with
     | .error e => .error e
     | .ok dailyData =>
       if dailyData.isEmpty then .ok noExpensesForPeriodResult
       else
         let labels := dailyData.map fun it => dailyLabel it.date
         let data := dailyData.map fun it => it.total
         let total := (dailyData.map fun it => it.total).sum
         let periodTitle := match args.period with
           | some p => if p = "" then "Selected Period" else periodTitleOf p
           | none => "Selected Period"
         match c.generateBarChartUrl labels data total
             ("Daily Expenses - " ++ periodTitle) with
         | .error e => .error e
         | .ok chartUrl =>
           .ok (.obj [("success", .bool true), ("chartUrl", .str chartUrl),
             ("dailyData", .arr (dailyData.map fun it =>
               .obj [("date", .str (formatDateSerial it.date)),
                     ("total", .num it.total), ("count", .num it.count)])),
             ("total", .num total),
             ("startDate", .str (formatDateSerial range.1)),
             ("endDate", .str (formatDateSerial range.2))]))
    failChartResult

/-- `generate_expense_report` (`percentage` is kept as the exact rational;
the source renders it with `toFixed(1)`, display rounding not modelled). -/
def execReport (c : Collab) (args : Args) (userId : Nat) : Except RErr RVal :=
  jsTry
    (let period := match args.period with
       | some p => if p = "" then "this_month" else p
       | none => "this_month"
     match c.getExpensesByCategory userId (some period) with
     | .error e => .error e
     | .ok categoryData =>
       if categoryData.isEmpty then .ok noExpensesForPeriodResult
       else
         let labels := categoryData.map fun it =>
           if it.category = "" then "Uncategorized" else it.category
         let data := categoryData.map fun it => it.total
         let total := (categoryData.map fun it => it.total).sum
         let totalCount := (categoryData.map fun it => it.count).sum
         let periodTitle := if period = "this_month" then "This Month"
           else if period = "this_week" then "This Week" else "All Time"
         match c.generatePieChartUrl labels data total
             ("Expense Report - " ++ periodTitle) with
         | .error e => .error e
         | .ok chartUrl =>
           .ok (.obj [("success", .bool true), ("chartUrl", .str chartUrl),
             ("period", .str period),
             ("categoryData", .arr (categoryData.map fun it =>
               .obj [("category", .str it.category), ("total", .num it.total),
                     ("count", .num it.count),
                     ("percentage", .num (it.total / total * 100))])),
             ("total", .num total), ("totalCount", .num totalCount)]))
    failReportResult

/-- The `switch (functionName)` body of `executeFunction`. -/
def execCase (c : Collab) (functionName : String) (args : Args) (user : UserAcct)
    (userId : Nat) (today : Int) : Except RErr RVal :=
  if functionName = "add_expense" then execAddExpense c args user userId today
  else if functionName = "delete_expense" then execDeleteExpense c args userId
  else if functionName = "get_total_expenses_today" then execTotalToday c userId
  else if functionName = "get_total_expenses_this_week" then execTotalThisWeek c userId
  else if functionName = "get_total_expenses_this_month" then execTotalThisMonth c userId
  else if functionName = "get_latest_expenses" then execLatestExpenses c args userId
  else if functionName = "get_total_expenses_all_time" then execTotalAllTime c userId
  else if functionName = "get_all_expenses" then execAllExpenses c args userId
  else if functionName = "get_expenses_by_date_range" then execRange c args userId today
  else if functionName = "get_total_expenses_by_date_range" then execTotalRange c args userId today
  else if functionName = "generate_daily_expense_chart" then execDailyChart c args userId today
  else if functionName = "generate_expense_report" then execReport c args userId
  else .ok (.obj [("error", .str ("Unknown function: " ++ functionName))])

/-- `executeFunction`: resolve the user first
(`if (!user) return { error: ... }`), then dispatch on the capability name. -/
def executeFunction (c : Collab) (functionName : String) (args : Args)
    (userId : Nat) (today : Int) : Except RErr RVal :=
  match c.findById userId with
  | .error e => .error e
  | .ok none => .ok userNotFoundResult
  | .ok (some user) => execCase c functionName args user userId today

/-- The declared capability names (the `getAvailableTools` catalog). -/
def capabilityNames : List String :=
  ["add_expense", "delete_expense", "get_total_expenses_today",
   "get_total_expenses_this_week", "get_total_expenses_this_month",
   "get_latest_expenses", "get_total_expenses_all_time", "get_all_expenses",
   "get_expenses_by_date_range", "get_total_expenses_by_date_range",
   "generate_daily_expense_chart", "generate_expense_report"]

/-! ## Collaborator instantiations -/

/-- The in-memory instantiation of the collaborators over a store of rows
and a user table: every service method is the (pure, total) embedding from
above.  `createExpense` rejects a missing amount at the store boundary (the
`amount` column is NOT NULL); the DB-assigned `id`/`createdAt` of a new row
are 0 here (no claim depends on them).  The chart URL builders are opaque
collaborators (spec scope) and return a fixed URL. -/
def pureCollab (store : List Expense) (users : List UserAcct) (today : Int) : Collab where
  findById userId := .ok (users.find? fun u => u.id == userId)
  createExpense dto :=
    match dto.amount with
    | none => .error .thrown
    | some a =>
      .ok { id := 0, ownerId := dto.user.id, amount := a,
            description := dto.description, category := storedCategory dto.category,
            date := dto.date.getD today, createdAt := 0 }
  getTotalExpensesByUserThisMonth userId := .ok (getTotalExpensesByUserThisMonth store today userId)
  getLatestExpenses userId limit := .ok (getLatestExpenses store userId limit)
  deleteExpense expenseId userId :=
    .ok (store.any fun e => e.id == expenseId && e.ownerId == userId)
  getTotalExpensesByUserToday userId := .ok (getTotalExpensesByUserToday store today userId)
  getTotalExpensesByUserThisWeek userId := .ok (getTotalExpensesByUserThisWeek store today userId)
  getTotalExpensesByUser userId := .ok (getTotalExpensesByUser store userId)
  getExpensesByUser userId limit := .ok (getExpensesByUser store userId limit)
  getExpensesByUserAndDateRange userId s e := .ok (getExpensesByUserAndDateRange store userId s e)
  getDailyExpenses userId s e := .ok (getDailyExpensesSvc store userId s e)
  getExpensesByCategory userId period := .ok (getExpensesByCategorySvc store today userId period)
  getExpensesByCategoryForDateRange _ _ _ _ := .ok (0, 0)
  generateBarChartUrl _ _ _ _ := .ok "https://quickchart.io/chart"
  generatePieChartUrl _ _ _ _ := .ok "https://quickchart.io/chart"

/-- A collaborator set where every ledger and chart call rejects, but the
user lookup succeeds: models "store unreachable". -/
def errCollab : Collab where
  findById _ := .ok (some { id := 7 })
  createExpense _ := .error .thrown
  getTotalExpensesByUserThisMonth _ := .error .thrown
  getLatestExpenses _ _ := .error .thrown
  deleteExpense _ _ := .error .thrown
  getTotalExpensesByUserToday _ := .error .thrown
  getTotalExpensesByUserThisWeek _ := .error .thrown
  getTotalExpensesByUser _ := .error .thrown
  getExpensesByUser _ _ := .error .thrown
  getExpensesByUserAndDateRange _ _ _ := .error .thrown
  getDailyExpenses _ _ _ := .error .thrown
  getExpensesByCategory _ _ := .error .thrown
  getExpensesByCategoryForDateRange _ _ _ _ := .error .thrown
  generateBarChartUrl _ _ _ _ := .error .thrown
  generatePieChartUrl _ _ _ _ := .error .thrown

/-! ## Claims -/

/-- Claim C1: for every reply envelope with format `template` whose
`templateName` is absent, the WhatsApp formatter emits exactly the wire
message it emits for a `text` envelope with the same content, and a template
wire message is only ever produced when a non-empty `templateName` is
present. -/
theorem C1_template_fallback (r : PlatformResponse) (rid : String) :
    (r.format = MessageFormat.template → r.templateName = none →
      whatsappFormat r rid =
        whatsappFormat { format := MessageFormat.text, content := r.content } rid)
    ∧ (∀ recipient name lang comps,
        whatsappFormat r rid = WAMessage.template recipient name lang comps →
        ∃ s, r.templateName = some s ∧ s ≠ "") := by
  constructor
  · intro hf hn
    simp [whatsappFormat, formatTemplate, formatText, hf, hn]
  · intro recipient name lang comps h
    by_cases hf : r.format = MessageFormat.template
    · rw [whatsappFormat, if_pos hf, formatTemplate] at h
      cases hn : r.templateName with
      | none => rw [hn] at h; simp [formatText] at h
      | some s =>
        rw [hn] at h
        simp only [] at h
        by_cases hs : s = ""
        · rw [if_pos hs] at h
          simp [formatText] at h
        · exact ⟨s, rfl, hs⟩
    · rw [whatsappFormat, if_neg hf] at h
      simp [formatText] at h

/-- Witness for C1 at a concrete envelope. -/
theorem C1_template_fallback_witness :
    whatsappFormat
        ({ format := MessageFormat.template, content := "hello", templateName := none } :
          PlatformResponse) "15551230000"
      = whatsappFormat ({ format := MessageFormat.text, content := "hello" } :
          PlatformResponse) "15551230000" :=
  (C1_template_fallback
    ({ format := MessageFormat.template, content := "hello", templateName := none } :
      PlatformResponse) "15551230000").1 rfl rfl

/-- Claim C10: parsing the round-2 model output maps exactly the string
`"template"` to a template-format envelope; every other value of `format`
(`"markdown"`, arbitrary strings, or a missing field) yields format `text`. -/
theorem C10_round2_format (p : Round2Parsed) :
    (mkRound2Response p).format =
      if p.format = some "template" then MessageFormat.template
      else MessageFormat.text := by
  unfold mkRound2Response
  split <;> (split <;> rfl)

/-- Witness for C10 at concrete parses. -/
theorem C10_round2_format_witness :
    (mkRound2Response { format := some "markdown", content := some "ok" }).format
        = MessageFormat.text
    ∧ (mkRound2Response { format := none, content := some "ok" }).format
        = MessageFormat.text
    ∧ (mkRound2Response { format := some "template", content := some "ok" }).format
        = MessageFormat.template := by
  refine ⟨?_, ?_, ?_⟩ <;> (rw [C10_round2_format]; decide)

/-- Claim C9: for every function name that is not one of the declared
capability names, the executor returns the structured result
`{ error: "Unknown function: <name>" }` and does not throw. -/
theorem C9_unknown_function (c : Collab) (fn : String) (args : Args) (userId : Nat)
    (today : Int) (u : UserAcct) (hu : c.findById userId = .ok (some u))
    (hfn : fn ∉ capabilityNames) :
    executeFunction c fn args userId today =
      .ok (.obj [("error", .str ("Unknown function: " ++ fn))]) := by
  have hne : ∀ s ∈ capabilityNames, fn ≠ s := fun s hs he => hfn (he ▸ hs)
  unfold executeFunction
  rw [hu]
  simp only []
  unfold execCase
  rw [if_neg (hne _ (by simp [capabilityNames])),
    if_neg (hne _ (by simp [capabilityNames])),
    if_neg (hne _ (by simp [capabilityNames])),
    if_neg (hne _ (by simp [capabilityNames])),
    if_neg (hne _ (by simp [capabilityNames])),
    if_neg (hne _ (by simp [capabilityNames])),
    if_neg (hne _ (by simp [capabilityNames])),
    if_neg (hne _ (by simp [capabilityNames])),
    if_neg (hne _ (by simp [capabilityNames])),
    if_neg (hne _ (by simp [capabilityNames])),
    if_neg (hne _ (by simp [capabilityNames])),
    if_neg (hne _ (by simp [capabilityNames]))]

/-- Witness for C9 at a concrete unknown name. -/
theorem C9_unknown_function_witness :
    executeFunction (pureCollab [] [{ id := 7 }] 0) "make_coffee" ({} : Args) 7 0
      = .ok (.obj [("error", .str "Unknown function: make_coffee")]) := by
  have h := C9_unknown_function (pureCollab [] [{ id := 7 }] 0) "make_coffee"
    ({} : Args) 7 0 { id := 7 } (by rfl) (by decide)
  simpa using h

/-! ### Dispatch helpers -/

theorem execCase_add (c : Collab) (args : Args) (u : UserAcct) (userId : Nat) (today : Int) :
    execCase c "add_expense" args u userId today = execAddExpense c args u userId today := rfl

theorem execCase_delete (c : Collab) (args : Args) (u : UserAcct) (userId : Nat) (today : Int) :
    execCase c "delete_expense" args u userId today = execDeleteExpense c args userId := rfl

theorem execCase_today (c : Collab) (args : Args) (u : UserAcct) (userId : Nat) (today : Int) :
    execCase c "get_total_expenses_today" args u userId today = execTotalToday c userId := rfl

theorem execCase_week (c : Collab) (args : Args) (u : UserAcct) (userId : Nat) (today : Int) :
    execCase c "get_total_expenses_this_week" args u userId today = execTotalThisWeek c userId := rfl

theorem execCase_month (c : Collab) (args : Args) (u : UserAcct) (userId : Nat) (today : Int) :
    execCase c "get_total_expenses_this_month" args u userId today = execTotalThisMonth c userId := rfl

theorem execCase_latest (c : Collab) (args : Args) (u : UserAcct) (userId : Nat) (today : Int) :
    execCase c "get_latest_expenses" args u userId today = execLatestExpenses c args userId := rfl

theorem execCase_alltime (c : Collab) (args : Args) (u : UserAcct) (userId : Nat) (today : Int) :
    execCase c "get_total_expenses_all_time" args u userId today = execTotalAllTime c userId := rfl

theorem execCase_range (c : Collab) (args : Args) (u : UserAcct) (userId : Nat) (today : Int) :
    execCase c "get_expenses_by_date_range" args u userId today = execRange c args userId today := rfl

theorem execCase_totalRange (c : Collab) (args : Args) (u : UserAcct) (userId : Nat) (today : Int) :
    execCase c "get_total_expenses_by_date_range" args u userId today
      = execTotalRange c args userId today := rfl

theorem execCase_daily (c : Collab) (args : Args) (u : UserAcct) (userId : Nat) (today : Int) :
    execCase c "generate_daily_expense_chart" args u userId today
      = execDailyChart c args userId today := rfl

theorem execCase_all (c : Collab) (args : Args) (u : UserAcct) (userId : Nat) (today : Int) :
    execCase c "get_all_expenses" args u userId today = execAllExpenses c args userId := rfl

theorem execCase_report (c : Collab) (args : Args) (u : UserAcct) (userId : Nat) (today : Int) :
    execCase c "generate_expense_report" args u userId today = execReport c args userId := rfl

theorem executeFunction_user (c : Collab) (fn : String) (args : Args) (userId : Nat)
    (today : Int) (u : UserAcct) (hu : c.findById userId = .ok (some u)) :
    executeFunction c fn args userId today = execCase c fn args u userId today := by
  unfold executeFunction
  rw [hu]

theorem pureCollab_findById (store : List Expense) (users : List UserAcct) (today : Int)
    (userId : Nat) (u : UserAcct) (hu : users.find? (fun x => x.id == userId) = some u) :
    (pureCollab store users today).findById userId = .ok (some u) := by
  simp [pureCollab, hu]

/-- Modelled from the spec: the `Failure{"missing_argument"}` operation
result the spec says the executor produces for a missing required argument.
The provided source has no such constructor anywhere; this value exists only
to state that fact. -/
def missingArgumentFailure : RVal := .obj [("error", .str "missing_argument")]

/-- Claim C2 (counterexample): `get_expenses_by_date_range` with no
`startDate` does not return `Failure{"missing_argument"}` — it throws: the
source runs `rangeArgs.startDate.split('-')` on `undefined`, and the
resulting `TypeError` leaves the executor uncaught (only the orchestrator's
outer catch sees it). -/
theorem C2_counterexample :
    executeFunction (pureCollab [] [{ id := 7 }] 0) "get_expenses_by_date_range"
      ({} : Args) 7 0 = .error .typeError := rfl

/-- Claim C2 (amended): the executor performs no missing-argument
validation.  For the date-range operations an absent `startDate` throws a
`TypeError` out of the executor; for `add_expense` an absent `amount` is
forwarded to the ledger store unvalidated, and the result is never
`Failure{"missing_argument"}` (it is the success payload, or the caught
`Failed to save expense` failure). -/
theorem C2_no_missing_argument_validation (c : Collab) (args : Args) (userId : Nat)
    (today : Int) (u : UserAcct) (hu : c.findById userId = .ok (some u)) :
    (args.startDate = none →
      executeFunction c "get_expenses_by_date_range" args userId today = .error .typeError
      ∧ executeFunction c "get_total_expenses_by_date_range" args userId today
          = .error .typeError)
    ∧ (args.amount = none →
      executeFunction c "add_expense" args userId today ≠ .ok missingArgumentFailure) := by
  constructor
  · intro hsd
    constructor
    · rw [executeFunction_user c _ args userId today u hu, execCase_range]
      unfold execRange
      rw [hsd]
    · rw [executeFunction_user c _ args userId today u hu, execCase_totalRange]
      unfold execTotalRange
      rw [hsd]
  · intro ham hcontra
    rw [executeFunction_user c _ args userId today u hu, execCase_add] at hcontra
    unfold execAddExpense jsTry at hcontra
    split at hcontra
    · simp [failSaveResult, missingArgumentFailure] at hcontra
    · rename_i v heq
      rw [Except.ok.injEq] at hcontra
      subst hcontra
      split at heq
      · simp at heq
      · split at heq
        · simp at heq
        · rw [Except.ok.injEq] at heq
          simp [missingArgumentFailure] at heq

/-- Witness for C2 at a concrete collaborator set. -/
theorem C2_no_missing_argument_validation_witness :
    executeFunction (pureCollab [] [{ id := 7 }] 0) "get_expenses_by_date_range"
        ({} : Args) 7 0 = .error .typeError
    ∧ executeFunction (pureCollab [] [{ id := 7 }] 0) "add_expense" ({} : Args) 7 0
        ≠ .ok missingArgumentFailure := by
  have h := C2_no_missing_argument_validation (pureCollab [] [{ id := 7 }] 0)
    ({} : Args) 7 0 { id := 7 } (by rfl)
  exact ⟨(h.1 rfl).1, h.2 rfl⟩

/-- Claim C4 (counterexample): a ledger-store failure in
`get_total_expenses_today` escapes the executor uncaught (the case has no
`try/catch`; only the orchestrator's outer catch would see it). -/
theorem C4_counterexample :
    executeFunction errCollab "get_total_expenses_today" ({} : Args) 7 0
      = .error .thrown := rfl

/-- Claim C4 (amended): collaborator failures are caught and converted to a
structured failure only inside `add_expense`, `delete_expense`,
`generate_daily_expense_chart` and `generate_expense_report`; in every other
capability (today, this week, this month, latest, all-time, all expenses,
and both date-range operations) a collaborator failure escapes the executor
uncaught. -/
theorem C4_collaborator_failures (c : Collab) (args : Args) (userId : Nat) (today : Int)
    (u : UserAcct) (er : RErr) (hu : c.findById userId = .ok (some u)) :
    (c.getTotalExpensesByUserToday userId = .error er →
      executeFunction c "get_total_expenses_today" args userId today = .error er)
    ∧ (c.getTotalExpensesByUserThisWeek userId = .error er →
      executeFunction c "get_total_expenses_this_week" args userId today = .error er)
    ∧ (c.getTotalExpensesByUserThisMonth userId = .error er →
      executeFunction c "get_total_expenses_this_month" args userId today = .error er)
    ∧ (c.getLatestExpenses userId
          (match args.limit with | some n => if n = 0 then 5 else n | none => 5) = .error er →
      executeFunction c "get_latest_expenses" args userId today = .error er)
    ∧ (c.getTotalExpensesByUser userId = .error er →
      executeFunction c "get_total_expenses_all_time" args userId today = .error er)
    ∧ (c.getExpensesByUser userId args.limit = .error er →
      executeFunction c "get_all_expenses" args userId today = .error er)
    ∧ (∀ sd, args.startDate = some sd →
      c.getExpensesByUserAndDateRange userId (parseLocalDate sd)
          (match args.endDate with
           | some ed => if ed = "" then today else parseLocalDate ed
           | none => today) = .error er →
      executeFunction c "get_expenses_by_date_range" args userId today = .error er)
    ∧ (∀ sd, args.startDate = some sd → args.category = none →
      c.getExpensesByUserAndDateRange userId (parseLocalDate sd)
          (match args.endDate with
           | some ed => if ed = "" then today else parseLocalDate ed
           | none => today) = .error er →
      executeFunction c "get_total_expenses_by_date_range" args userId today = .error er)
    ∧ ((∀ dto, c.createExpense dto = .error er) →
      executeFunction c "add_expense" args userId today = .ok failSaveResult)
    ∧ (c.getLatestExpenses userId 1 = .error er →
      (∀ n, c.deleteExpense n userId = .error er) →
      executeFunction c "delete_expense" args userId today = .ok failDeleteResult)
    ∧ ((∀ s t, c.getDailyExpenses userId s t = .error er) →
      executeFunction c "generate_daily_expense_chart" args userId today
        = .ok failChartResult)
    ∧ ((∀ p, c.getExpensesByCategory userId p = .error er) →
      executeFunction c "generate_expense_report" args userId today
        = .ok failReportResult) := by
  refine ⟨?_, ?_, ?_, ?_, ?_, ?_, ?_, ?_, ?_, ?_, ?_, ?_⟩
  · intro h
    rw [executeFunction_user c _ args userId today u hu, execCase_today]
    unfold execTotalToday
    rw [h]
  · intro h
    rw [executeFunction_user c _ args userId today u hu, execCase_week]
    unfold execTotalThisWeek
    rw [h]
  · intro h
    rw [executeFunction_user c _ args userId today u hu, execCase_month]
    unfold execTotalThisMonth
    rw [h]
  · intro h
    rw [executeFunction_user c _ args userId today u hu, execCase_latest]
    unfold execLatestExpenses
    simp only []
    rw [h]
  · intro h
    rw [executeFunction_user c _ args userId today u hu, execCase_alltime]
    unfold execTotalAllTime
    rw [h]
  · intro h
    rw [executeFunction_user c _ args userId today u hu, execCase_all]
    unfold execAllExpenses
    rw [h]
  · intro sd hsd h
    rw [executeFunction_user c _ args userId today u hu, execCase_range]
    unfold execRange
    rw [hsd]
    simp only []
    rw [h]
  · intro sd hsd hcat h
    rw [executeFunction_user c _ args userId today u hu, execCase_totalRange]
    unfold execTotalRange
    rw [hsd]
    simp only []
    rw [hcat]
    simp only []
    rw [h]
  · intro h
    rw [executeFunction_user c _ args userId today u hu, execCase_add]
    unfold execAddExpense
    rw [h]
    rfl
  · intro hlat hdel
    rw [executeFunction_user c _ args userId today u hu, execCase_delete]
    unfold execDeleteExpense
    cases hid : args.expenseId with
    | none =>
      simp only []
      rw [hlat]
      rfl
    | some n =>
      simp only []
      by_cases hn : n = 0
      · rw [if_pos hn]
        simp only []
        rw [hlat]
        rfl
      · rw [if_neg hn]
        simp only []
        unfold execDoDelete
        rw [hdel n]
        rfl
  · intro h
    rw [executeFunction_user c _ args userId today u hu, execCase_daily]
    unfold execDailyChart
    simp only []
    rw [h (dailyChartRange args today).1 (dailyChartRange args today).2]
    rfl
  · intro h
    rw [executeFunction_user c _ args userId today u hu, execCase_report]
    unfold execReport
    simp only []
    rw [h (some (match args.period with
      | some p => if p = "" then "this_month" else p
      | none => "this_month"))]
    rfl

/-- Witness for C4 at the all-rejecting collaborator set, exercising an
escaping aggregate case, an escaping date-range case, and the caught add,
delete and report cases. -/
theorem C4_collaborator_failures_witness :
    executeFunction errCollab "get_total_expenses_this_week" ({} : Args) 7 0
        = .error .thrown
    ∧ executeFunction errCollab "get_expenses_by_date_range"
        ({ startDate := some "2025-01-02" } : Args) 7 0 = .error .thrown
    ∧ executeFunction errCollab "add_expense" ({} : Args) 7 0 = .ok failSaveResult
    ∧ executeFunction errCollab "delete_expense" ({} : Args) 7 0 = .ok failDeleteResult
    ∧ executeFunction errCollab "generate_expense_report" ({} : Args) 7 0
        = .ok failReportResult := by
  have h1 := C4_collaborator_failures errCollab ({} : Args) 7 0 { id := 7 } .thrown rfl
  have h2 := C4_collaborator_failures errCollab ({ startDate := some "2025-01-02" } : Args)
    7 0 { id := 7 } .thrown rfl
  obtain ⟨-, hw, -, -, -, -, -, -, hadd, hdel, -, hrep⟩ := h1
  obtain ⟨-, -, -, -, -, -, hr2, -, -, -, -, -⟩ := h2
  exact ⟨hw rfl, hr2 "2025-01-02" rfl rfl, hadd (fun _ => rfl),
    hdel rfl (fun _ => rfl), hrep (fun _ => rfl)⟩

/-- An inverted range matches no rows. -/
theorem range_empty (store : List Expense) (userId : Nat) (s e : Int) (h : e < s) :
    getExpensesByUserAndDateRange store userId s e = [] := by
  unfold getExpensesByUserAndDateRange
  rw [List.filter_eq_nil_iff.mpr]
  · rfl
  · intro a _
    simp only [decide_eq_true_eq]
    rintro ⟨-, h1, h2⟩
    omega

/-- Claim C3 (counterexample): an explicit date range whose start postdates
its end (2025-01-02 .. 2025-01-01) returns a normal result over the empty
matching set — total 0, count 0 — not an `InvalidRange` error, even though
the owner has a matching-owner row dated at the start day. -/
theorem C3_counterexample :
    executeFunction
        (pureCollab [(⟨1, 7, 5, none, none, 20090, 0⟩ : Expense)] [{ id := 7 }] 20100)
        "get_expenses_by_date_range"
        ({ startDate := some "2025-01-02", endDate := some "2025-01-01" } : Args) 7 20100
      = .ok (.obj [("expenses", .arr []), ("total", .num 0), ("count", .num 0),
          ("startDate", .str "2025-01-02"), ("endDate", .str "2025-01-01")]) := rfl

/-- Claim C3 (amended): neither date-range operation checks `start ≤ end`;
when the parsed start postdates the parsed end they return a normal
success-shaped result over the empty matching set (no expenses, total 0,
count 0) instead of failing with `InvalidRange`. -/
theorem C3_no_invalid_range_check (store : List Expense) (users : List UserAcct)
    (today : Int) (userId : Nat) (u : UserAcct) (sd ed : String) (lim : Option Nat)
    (hu : users.find? (fun x => x.id == userId) = some u)
    (hed : ed ≠ "")
    (hlt : parseLocalDate ed < parseLocalDate sd) :
    executeFunction (pureCollab store users today) "get_expenses_by_date_range"
        ({ startDate := some sd, endDate := some ed, limit := lim } : Args) userId today
      = .ok (.obj [("expenses", .arr []), ("total", .num 0), ("count", .num 0),
          ("startDate", .str sd), ("endDate", .str ed)])
    ∧ executeFunction (pureCollab store users today) "get_total_expenses_by_date_range"
        ({ startDate := some sd, endDate := some ed } : Args) userId today
      = .ok (.obj [("total", .num 0), ("count", .num 0),
          ("startDate", .str sd), ("endDate", .str ed)]) := by
  have hfb := pureCollab_findById store users today userId u hu
  constructor
  · rw [executeFunction_user _ _ _ userId today u hfb, execCase_range]
    unfold execRange
    simp only []
    simp only [if_neg hed]
    have hrange : (pureCollab store users today).getExpensesByUserAndDateRange userId
        (parseLocalDate sd) (parseLocalDate ed) = .ok [] := by
      show Except.ok (getExpensesByUserAndDateRange store userId
        (parseLocalDate sd) (parseLocalDate ed)) = .ok []
      rw [range_empty store userId _ _ hlt]
    rw [hrange]
    simp only []
    cases lim with
    | none => simp
    | some l => simp
  · rw [executeFunction_user _ _ _ userId today u hfb, execCase_totalRange]
    unfold execTotalRange
    simp only []
    simp only [if_neg hed]
    have hrange : (pureCollab store users today).getExpensesByUserAndDateRange userId
        (parseLocalDate sd) (parseLocalDate ed) = .ok [] := by
      show Except.ok (getExpensesByUserAndDateRange store userId
        (parseLocalDate sd) (parseLocalDate ed)) = .ok []
      rw [range_empty store userId _ _ hlt]
    rw [hrange]
    simp

/-- Witness for C3 at a concrete store and range. -/
theorem C3_no_invalid_range_check_witness :
    executeFunction (pureCollab [] [{ id := 7 }] 20100) "get_expenses_by_date_range"
        ({ startDate := some "2025-01-02", endDate := some "2025-01-01" } : Args) 7 20100
      = .ok (.obj [("expenses", .arr []), ("total", .num 0), ("count", .num 0),
          ("startDate", .str "2025-01-02"), ("endDate", .str "2025-01-01")]) := by
  have h := C3_no_invalid_range_check [] [{ id := 7 }] 20100 7 { id := 7 }
    "2025-01-02" "2025-01-01" none (by rfl) (by decide) (by decide)
  exact h.1

theorem mem_getLatestExpenses (store : List Expense) (userId : Nat) (lim : Nat)
    (x : Expense) (hx : x ∈ getLatestExpenses store userId lim) :
    x ∈ store ∧ x.ownerId = userId := by
  unfold getLatestExpenses at hx
  have h1 : x ∈ sortBy byCreatedDesc (store.filter fun e => e.ownerId = userId) :=
    List.mem_of_mem_take hx
  have h2 : x ∈ store.filter (fun e => e.ownerId = userId) :=
    (sortBy_perm _ _).mem_iff.mp h1
  have h3 := List.mem_filter.mp h2
  exact ⟨h3.1, by simpa using h3.2⟩

/-- Claim C8: `delete_expense` with `expenseId` 0 (or absent — both falsy)
resolves to the owner's most recently created expense and deletes it; the
not-found result appears exactly when the owner has no expenses, and for a
truthy id exactly when that id does not belong to the owner. -/
theorem C8_delete_falsy_id (store : List Expense) (users : List UserAcct) (today : Int)
    (userId : Nat) (u : UserAcct) (args : Args)
    (hu : users.find? (fun x => x.id == userId) = some u)
    (hid : args.expenseId = none ∨ args.expenseId = some 0) :
    executeFunction (pureCollab store users today) "delete_expense" args userId today
      = executeFunction (pureCollab store users today) "delete_expense"
          { args with expenseId := none } userId today
    ∧ (match getLatestExpenses store userId 1 with
       | [] =>
         executeFunction (pureCollab store users today) "delete_expense" args userId today
           = .ok noExpensesToDeleteResult
       | x :: _ =>
         executeFunction (pureCollab store users today) "delete_expense" args userId today
           = .ok (.obj [("success", .bool true),
               ("message", .str ("Expense " ++ toString x.id ++ " deleted successfully")),
               ("expenseId", .num x.id)]))
    ∧ (∀ (args3 : Args) (n : Nat), args3.expenseId = some n → n ≠ 0 →
        executeFunction (pureCollab store users today) "delete_expense" args3 userId today
          = .ok (if (store.any fun e => e.id == n && e.ownerId == userId) = true
              then .obj [("success", .bool true),
                  ("message", .str ("Expense " ++ toString n ++ " deleted successfully")),
                  ("expenseId", .num n)]
              else deleteNotFoundResult)) := by
  have hfb := pureCollab_findById store users today userId u hu
  have hfalsy : (match args.expenseId with
      | some n => if n = 0 then none else some n
      | none => none) = (none : Option Nat) := by
    rcases hid with h | h <;> simp [h]
  refine ⟨?_, ?_, ?_⟩
  · rw [executeFunction_user _ _ _ _ _ _ hfb, execCase_delete,
      executeFunction_user _ _ _ _ _ _ hfb, execCase_delete]
    unfold execDeleteExpense
    rw [hfalsy]
  · rw [executeFunction_user _ _ _ _ _ _ hfb, execCase_delete]
    unfold execDeleteExpense
    rw [hfalsy]
    have hlat : (pureCollab store users today).getLatestExpenses userId 1
        = .ok (getLatestExpenses store userId 1) := rfl
    rw [hlat]
    cases hl : getLatestExpenses store userId 1 with
    | nil => rfl
    | cons x t =>
      have hx : x ∈ getLatestExpenses store userId 1 := by
        rw [hl]; exact List.mem_cons_self x t
      obtain ⟨hxs, hxo⟩ := mem_getLatestExpenses store userId 1 x hx
      have hdel : (pureCollab store users today).deleteExpense x.id userId = .ok true := by
        show Except.ok (store.any fun e => e.id == x.id && e.ownerId == userId) = .ok true
        congr 1
        exact List.any_eq_true.mpr ⟨x, hxs, by simp [hxo]⟩
      simp only []
      unfold execDoDelete
      rw [hdel]
      rfl
  · intro args3 n h3 hn
    rw [executeFunction_user _ _ _ _ _ _ hfb, execCase_delete]
    unfold execDeleteExpense
    rw [show (match args3.expenseId with
        | some n => if n = 0 then none else some n
        | none => none) = some n from by simp [h3, hn]]
    simp only []
    unfold execDoDelete
    have hdel : (pureCollab store users today).deleteExpense n userId
        = .ok (store.any fun e => e.id == n && e.ownerId == userId) := rfl
    rw [hdel]
    by_cases hany : (store.any fun e => e.id == n && e.ownerId == userId) = true
    · rw [hany]
      rfl
    · have hfalse : (store.any fun e => e.id == n && e.ownerId == userId) = false := by
        simpa using hany
      rw [hfalse]
      rfl

/-- Witness for C8: with two expenses of the owner, `expenseId = 0` deletes
the most recently created one (id 4). -/
theorem C8_delete_falsy_id_witness :
    executeFunction
        (pureCollab [(⟨3, 7, 10, none, none, 0, 5⟩ : Expense),
          (⟨4, 7, 20, none, none, 0, 9⟩ : Expense)] [{ id := 7 }] 0)
        "delete_expense" ({ expenseId := some 0 } : Args) 7 0
      = .ok (.obj [("success", .bool true),
          ("message", .str "Expense 4 deleted successfully"), ("expenseId", .num 4)]) := by
  have h := C8_delete_falsy_id
    [(⟨3, 7, 10, none, none, 0, 5⟩ : Expense), (⟨4, 7, 20, none, none, 0, 9⟩ : Expense)]
    [{ id := 7 }] 0 7 { id := 7 } ({ expenseId := some 0 } : Args) (by rfl) (Or.inr rfl)
  exact h.2.1

/-- Claim C5 (counterexample): with today = serial 102 (a Monday,
`jsGetDay 102 = 1`), the current week's 7 calendar days in the claim's sense
are 101..107 (101 is the most recent day-0), yet a record dated 108 — the
following day-0, outside those 7 days — is counted: the week query's end
bound `startOfWeek + 7` is compared inclusively. -/
theorem C5_counterexample :
    jsGetDay 101 = 0 ∧ jsGetDay 102 = 1
    ∧ ¬ ((101 : Int) ≤ 108 ∧ (108 : Int) ≤ 101 + 6)
    ∧ getTotalExpensesByUserThisWeek [(⟨1, 7, 5, none, none, 108, 0⟩ : Expense)] 102 7
        = (5, 1) := by
  refine ⟨by decide, by decide, by decide, ?_⟩
  unfold getTotalExpensesByUserThisWeek getExpensesByUserAndDateRange
  norm_num [jsGetDay, sortBy, insertBy, List.filter]

/-- Claim C5 (amended): aggregate-by-period for "this week" sums and counts
exactly the owner's records whose dates lie in the 8 calendar days from the
most recent local day-0 through the following day-0 inclusive (both
endpoints included: the range query compares `date <= startOfWeek + 7`
inclusively); no record outside that inclusive window contributes. -/
theorem C5_week_window (store : List Expense) (today : Int) (userId : Nat) :
    getTotalExpensesByUserThisWeek store today userId
      = (((store.filter fun e => e.ownerId = userId ∧ today - jsGetDay today ≤ e.date
            ∧ e.date ≤ today - jsGetDay today + 7).map fun e => e.amount).sum,
         (store.filter fun e => e.ownerId = userId ∧ today - jsGetDay today ≤ e.date
            ∧ e.date ≤ today - jsGetDay today + 7).length) := by
  unfold getTotalExpensesByUserThisWeek getExpensesByUserAndDateRange
  simp only []
  have hperm := sortBy_perm byDateCreatedDesc
    (store.filter fun e => e.ownerId = userId ∧ today - jsGetDay today ≤ e.date
      ∧ e.date ≤ today - jsGetDay today + 7)
  rw [Prod.mk.injEq]
  exact ⟨(hperm.map fun e => e.amount).sum_eq, hperm.length_eq⟩

/-- Witness for C5: the amended characterization evaluated at the
counterexample store. -/
theorem C5_week_window_witness :
    getTotalExpensesByUserThisWeek [(⟨1, 7, 5, none, none, 108, 0⟩ : Expense)] 102 7
      = (5, 1) := by
  rw [C5_week_window]
  norm_num [jsGetDay, List.filter]

/-- Claim C6: day-level grouping returns exactly one entry per distinct
calendar date occurring among the records (dates with no record are
omitted, never zero-filled), sorted strictly ascending by date, each entry
carrying that day's total and count. -/
theorem C6_daily_grouping (records : List Expense) :
    List.Pairwise (fun a b => a.date < b.date) (getDailyExpensesGroup records)
    ∧ (∀ d : Int, (∃ en ∈ getDailyExpensesGroup records, en.date = d)
        ↔ ∃ r ∈ records, r.date = d)
    ∧ (∀ en ∈ getDailyExpensesGroup records,
        en.total = sumByKey (fun e => e.date) records en.date
        ∧ en.count = countByKey (fun e => e.date) records en.date) := by
  have hperm : List.Perm (getDailyExpensesGroup records)
      ((groupPairs (fun e => e.date) records).map fun p =>
        ({ date := p.1, total := p.2.1, count := p.2.2 } : DayEntry)) :=
    sortBy_perm _ _
  have hkeys : (((groupPairs (fun e => e.date) records).map fun p =>
        ({ date := p.1, total := p.2.1, count := p.2.2 } : DayEntry)).map fun en => en.date)
      = (groupPairs (fun e => e.date) records).map Prod.fst := by
    rw [List.map_map]
    rfl
  have hnodupP := groupPairs_nodup_keys (fun e => e.date) records
  have hnodupG : ((getDailyExpensesGroup records).map fun en => en.date).Nodup := by
    rw [(hperm.map fun en => en.date).nodup_iff, hkeys]
    exact hnodupP
  have htot : ∀ a b : DayEntry,
      decide (a.date ≤ b.date) = true ∨ decide (b.date ≤ a.date) = true := by
    intro a b
    rcases le_total a.date b.date with h | h
    · exact Or.inl (by simpa using h)
    · exact Or.inr (by simpa using h)
  have htr : ∀ a b c : DayEntry, decide (a.date ≤ b.date) = true →
      decide (b.date ≤ c.date) = true → decide (a.date ≤ c.date) = true := by
    intro a b c h1 h2
    simp only [decide_eq_true_eq] at *
    omega
  have hsorted0 := sortBy_pairwise (fun a b : DayEntry => decide (a.date ≤ b.date)) htot htr
    ((groupPairs (fun e => e.date) records).map fun p =>
      ({ date := p.1, total := p.2.1, count := p.2.2 } : DayEntry))
  have hsorted : List.Pairwise
      (fun a b : DayEntry => decide (a.date ≤ b.date) = true)
      (getDailyExpensesGroup records) := hsorted0
  have hne : List.Pairwise (fun a b : DayEntry => a.date ≠ b.date)
      (getDailyExpensesGroup records) := List.pairwise_map.mp hnodupG
  refine ⟨(hsorted.and hne).imp fun h => lt_of_le_of_ne (of_decide_eq_true h.1) h.2, ?_, ?_⟩
  · intro d
    constructor
    · rintro ⟨en, hen, hd⟩
      have h1 : d ∈ (getDailyExpensesGroup records).map fun en => en.date :=
        List.mem_map.mpr ⟨en, hen, hd⟩
      have h2 := (hperm.map fun en => en.date).mem_iff.mp h1
      rw [hkeys] at h2
      exact (groupPairs_key_mem _ _ _).mp h2
    · intro hr
      have h2 : d ∈ (groupPairs (fun e => e.date) records).map Prod.fst :=
        (groupPairs_key_mem _ _ _).mpr hr
      rw [← hkeys] at h2
      have h3 := (hperm.map fun en => en.date).mem_iff.mpr h2
      obtain ⟨en, hen, hd⟩ := List.mem_map.mp h3
      exact ⟨en, hen, hd⟩
  · intro en hen
    have henE : en ∈ (groupPairs (fun e => e.date) records).map fun p =>
        ({ date := p.1, total := p.2.1, count := p.2.2 } : DayEntry) :=
      hperm.mem_iff.mp hen
    obtain ⟨p, hp, hpe⟩ := List.mem_map.mp henE
    have hget : mapGet p.1 (groupPairs (fun e => e.date) records) = some p.2 :=
      mapGet_eq_some_of_mem p.1 p.2 _ hnodupP hp
    rw [groupPairs_get] at hget
    by_cases hc : countByKey (fun e => e.date) records p.1 = 0
    · rw [if_pos hc] at hget
      simp at hget
    · rw [if_neg hc] at hget
      rw [Option.some.injEq] at hget
      constructor
      · rw [← hpe]
        show p.2.1 = sumByKey (fun e => e.date) records p.1
        rw [← hget]
      · rw [← hpe]
        show p.2.2 = countByKey (fun e => e.date) records p.1
        rw [← hget]

def c6DemoRecords : List Expense :=
  [⟨1, 7, 5, none, none, 1, 0⟩, ⟨2, 7, 3, none, none, 1, 1⟩, ⟨3, 7, 4, none, none, 3, 2⟩]

/-- Witness for C6: a three-record store with expenses on days 1 and 3 has a
grouped entry for day 3. -/
theorem C6_daily_grouping_witness :
    ∃ en ∈ getDailyExpensesGroup c6DemoRecords, en.date = 3 :=
  ((C6_daily_grouping c6DemoRecords).2.1 3).mpr
    ⟨⟨3, 7, 4, none, none, 3, 2⟩, by simp [c6DemoRecords], rfl⟩

theorem categoryKey_storedCategory (c : String) :
    categoryKey (storedCategory (some c)) =
      if jsToLower (jsTrim c) = "" then "uncategorized" else jsToLower (jsTrim c) := by
  by_cases hc : c = ""
  · subst hc
    rfl
  · have hstored : storedCategory (some c) = some (jsToLower (jsTrim c)) := by
      simp [storedCategory, hc]
    rw [hstored]
    unfold categoryKey
    simp only []
    by_cases hn : jsToLower (jsTrim c) = ""
    · rw [if_pos hn, if_pos hn]
    · rw [if_neg hn, if_neg hn]
      exact norm_idem c

theorem countByKey_two {κ : Type} [DecidableEq κ] (key : Expense → κ)
    (pre mid post : List Expense) (r1 r2 : Expense) (k : κ)
    (h1 : key r1 = k) (h2 : key r2 = k) :
    2 ≤ countByKey key (pre ++ r1 :: (mid ++ r2 :: post)) k := by
  unfold countByKey
  simp [List.filter_append, List.filter_cons, h1, h2]
  omega

/-- A store slice holding two rows created with the raw category inputs `c1`
and `c2` (as stored by `createExpense`), surrounded by arbitrary rows. -/
def c7Records (c1 c2 : String) (a1 a2 : ℚ) (pre mid post : List Expense)
    (uid : Nat) : List Expense :=
  pre ++ (⟨1, uid, a1, none, storedCategory (some c1), 0, 0⟩ : Expense)
    :: (mid ++ (⟨2, uid, a2, none, storedCategory (some c2), 0, 0⟩ : Expense) :: post)

/-- Claim C7: two records whose raw category texts differ only by letter
case and/or leading/trailing whitespace (their trimmed lower-casings agree)
are stored with categories that land in the same `groupByCategory` bucket,
and that bucket's total and count cover all records with that bucket key —
in particular both of them (`count ≥ 2`). -/
theorem C7_category_grouping (c1 c2 : String) (a1 a2 : ℚ) (pre mid post : List Expense)
    (uid : Nat) (h : jsToLower (jsTrim c1) = jsToLower (jsTrim c2)) :
    categoryKey (storedCategory (some c1)) = categoryKey (storedCategory (some c2))
    ∧ ∃ en ∈ getExpensesByCategoryGroup (c7Records c1 c2 a1 a2 pre mid post uid),
        en.category = categoryKey (storedCategory (some c1))
        ∧ en.total = sumByKey (fun e => categoryKey e.category)
            (c7Records c1 c2 a1 a2 pre mid post uid) en.category
        ∧ en.count = countByKey (fun e => categoryKey e.category)
            (c7Records c1 c2 a1 a2 pre mid post uid) en.category
        ∧ 2 ≤ en.count := by
  have hkey : categoryKey (storedCategory (some c1)) = categoryKey (storedCategory (some c2)) := by
    rw [categoryKey_storedCategory, categoryKey_storedCategory, h]
  refine ⟨hkey, ?_⟩
  have hcount2 : 2 ≤ countByKey (fun e => categoryKey e.category)
      (c7Records c1 c2 a1 a2 pre mid post uid) (categoryKey (storedCategory (some c1))) :=
    countByKey_two (fun e => categoryKey e.category) pre mid post
      (⟨1, uid, a1, none, storedCategory (some c1), 0, 0⟩ : Expense)
      (⟨2, uid, a2, none, storedCategory (some c2), 0, 0⟩ : Expense)
      (categoryKey (storedCategory (some c1))) rfl hkey.symm
  have hcpos : countByKey (fun e => categoryKey e.category)
      (c7Records c1 c2 a1 a2 pre mid post uid)
      (categoryKey (storedCategory (some c1))) ≠ 0 := by omega
  have hget := groupPairs_get (fun e => categoryKey e.category)
    (c7Records c1 c2 a1 a2 pre mid post uid) (categoryKey (storedCategory (some c1)))
  rw [if_neg hcpos] at hget
  have hmem := mem_of_mapGet_eq_some _ _ _ hget
  exact ⟨⟨categoryKey (storedCategory (some c1)),
      sumByKey (fun e => categoryKey e.category)
        (c7Records c1 c2 a1 a2 pre mid post uid) (categoryKey (storedCategory (some c1))),
      countByKey (fun e => categoryKey e.category)
        (c7Records c1 c2 a1 a2 pre mid post uid) (categoryKey (storedCategory (some c1)))⟩,
    List.mem_map.mpr ⟨_, hmem, rfl⟩, rfl, rfl, rfl, hcount2⟩

/-- Witness for C7: `" Food"` and `"fOOD "` end up in the same bucket, which
counts both. -/
theorem C7_category_grouping_witness :
    ∃ en ∈ getExpensesByCategoryGroup (c7Records " Food" "fOOD " 3 4 [] [] [] 7),
      en.category = categoryKey (storedCategory (some " Food"))
      ∧ en.total = sumByKey (fun e => categoryKey e.category)
          (c7Records " Food" "fOOD " 3 4 [] [] [] 7) en.category
      ∧ en.count = countByKey (fun e => categoryKey e.category)
          (c7Records " Food" "fOOD " 3 4 [] [] [] 7) en.category
      ∧ 2 ≤ en.count :=
  (C7_category_grouping " Food" "fOOD " 3 4 [] [] [] 7 (by decide)).2
